import Mathlib

/-!
Verification of the `mini-clinical-assistant` transcript-processing pipeline
(`backend/src/services/transcriptService.js` and `backend/src/routes/transcript.js`).

The JavaScript code is shallowly embedded: strings are Lean `String`s
(lists of characters; the inputs exercised here are ASCII, where JavaScript's
UTF-16 `length`/`toLowerCase`/`trim` agree with the character-list versions
defined below), JSON values are an inductive type, thrown exceptions are
`Except String`, and the two OpenAI chat-completion calls are a parameter
`provider : Nat → Except String String` (call 0 = SOAP stage, call 1 = coding
stage) returning either the response text or the error message.
-/

namespace MiniClinical

/-! ## JavaScript string primitives -/

/-- Whitespace for JavaScript `String.prototype.trim` (ASCII part plus NBSP,
BOM and the Unicode line separators; `Zs` spaces beyond NBSP do not occur in
this development). -/
def jsWhitespaceChar (c : Char) : Bool :=
  c == ' ' || c == '\t' || c == '\n' || c == '\r' ||
  c.toNat == 11 || c.toNat == 12 || c.toNat == 160 ||
  c.toNat == 65279 || c.toNat == 8232 || c.toNat == 8233

/-- `trim` on a character list: drop whitespace from both ends. -/
def trimChars (s : List Char) : List Char :=
  ((s.dropWhile jsWhitespaceChar).reverse.dropWhile jsWhitespaceChar).reverse

/-- JavaScript `s.trim()`. -/
def jsTrim (s : String) : String := ⟨trimChars s.data⟩

/-- JavaScript `s.split(sep)` for a single-character separator.
`splitOnChar c []` is `[[]]`, matching `"".split(c) = [""]`. -/
def splitOnChar (sep : Char) : List Char → List (List Char)
  | [] => [[]]
  | c :: cs =>
    match splitOnChar sep cs with
    | [] => if c == sep then [[], []] else [[c]]
    | h :: t => if c == sep then [] :: h :: t else (c :: h) :: t

/-- JavaScript `parts.join(sep)` for a single-character separator. -/
def joinChar (sep : Char) : List (List Char) → List Char
  | [] => []
  | [x] => x
  | x :: y :: t => x ++ sep :: joinChar sep (y :: t)

/-- JavaScript `s.toLowerCase()` (ASCII; all strings compared in the source
are ASCII). -/
def jsToLower (s : String) : String := ⟨s.data.map Char.toLower⟩

/-- Does `p` match at the head of `s` (case-sensitive)? -/
def startsWithChars : List Char → List Char → Bool
  | [], _ => true
  | _ :: _, [] => false
  | p :: ps, c :: cs => p == c && startsWithChars ps cs

/-- Does `needle` occur contiguously anywhere in the second list? -/
def containsChars (needle : List Char) : List Char → Bool
  | [] => startsWithChars needle []
  | c :: cs => startsWithChars needle (c :: cs) || containsChars needle cs

/-- JavaScript `s.includes(sub)` (case-sensitive substring containment). -/
def jsIncludes (s sub : String) : Bool := containsChars sub.data s.data

/-- Does `p` match at the head of `s`, comparing characters case-insensitively
(the `i` flag of the source's `new RegExp(claim.absolute, 'gi')`; all patterns
are literal text without regex metacharacters)? -/
def startsWithCI : List Char → List Char → Bool
  | [], _ => true
  | _ :: _, [] => false
  | p :: ps, c :: cs => (p.toLower == c.toLower) && startsWithCI ps cs

/-- Does `p` occur (case-insensitively) anywhere in `s`?  This is
`regex.test(text)` for the literal pattern `p`. -/
def hasMatchCI (p : List Char) : List Char → Bool
  | [] => startsWithCI p []
  | c :: cs => startsWithCI p (c :: cs) || hasMatchCI p cs

/-- Case-insensitive global replace, scanning left to right and replacing
non-overlapping matches — the semantics of `text.replace(/p/gi, r)` for a
literal pattern.  The fuel argument (instantiated with the length of the
scanned list, which bounds the number of scanning steps because every
non-empty match consumes at least one character) keeps the recursion
structural so that it evaluates inside the kernel. -/
def replaceCIFuel (p r : List Char) : Nat → List Char → List Char
  | 0, s => s
  | _ + 1, [] => []
  | fuel + 1, c :: cs =>
    if !p.isEmpty && startsWithCI p (c :: cs) then
      r ++ replaceCIFuel p r fuel ((c :: cs).drop p.length)
    else
      c :: replaceCIFuel p r fuel cs

/-- JavaScript `text.replace(new RegExp(pat, 'gi'), repl)` for literal `pat`. -/
def jsReplaceAllCI (pat repl s : String) : String :=
  ⟨replaceCIFuel pat.data repl.data s.data.length s.data⟩

/-- `regex.test` on a `String`. -/
def jsTestCI (pat s : String) : Bool := hasMatchCI pat.data s.data

/-! ## The fixed tables (`transcriptService.js` constructor) -/

/-- Emergency keywords that trigger high-risk warnings. -/
def emergencyKeywords : List String :=
  ["chest pain", "suicidal", "suicide", "heart attack", "stroke",
   "seizure", "unconscious", "bleeding", "overdose", "difficulty breathing",
   "shortness of breath severe", "allergic reaction", "anaphylaxis",
   "severe pain", "emergency", "urgent", "critical"]

/-- One entry of the absolute-claim table. -/
structure AbsoluteClaim where
  absolute : String
  cautious : String
deriving Repr, DecidableEq

/-- Medical claims that need to be softened, in source order. -/
def absoluteClaims : List AbsoluteClaim :=
  [⟨"will cure", "may help treat"⟩,
   ⟨"will heal", "may aid healing"⟩,
   ⟨"guaranteed", "likely to"⟩,
   ⟨"definitely will", "may"⟩,
   ⟨"always works", "often helps"⟩,
   ⟨"never fails", "is typically effective"⟩,
   ⟨"completely safe", "generally well-tolerated"⟩,
   ⟨"no side effects", "minimal side effects expected"⟩]

/-! ## RiskScanner (`validateTranscript`) and ContentExtractor (`extractContent`) -/

/-- `SafetyFlags` as produced by `validateTranscript` and appended to by
`applySafetyModifications`. -/
structure SafetyFlags where
  high_risk : Bool
  emergency_terms : List String
  modified_claims : List String
deriving Repr, DecidableEq

/-- `validateTranscript`: case-insensitive substring scan of the transcript
against the fixed emergency-keyword list. -/
def validateTranscript (transcript : String) : SafetyFlags :=
  let lowerTranscript := jsToLower transcript
  let found := emergencyKeywords.filter fun keyword =>
    jsIncludes lowerTranscript (jsToLower keyword)
  { high_risk := decide (0 < found.length)
    emergency_terms := found
    modified_claims := [] }

/-- `ExtractedContent`: speaker-attributed statement lists. -/
structure ExtractedContent where
  patientStatements : List String
  doctorStatements : List String
deriving Repr, DecidableEq

/-- One iteration of the `lines.forEach` loop in `extractContent`. -/
def classifyLine (acc : ExtractedContent) (line : String) : ExtractedContent :=
  let trimmedLine := jsTrim line
  if jsIncludes trimmedLine ":" then
    let parts := splitOnChar ':' trimmedLine.data
    let speaker : String := ⟨parts.headD []⟩
    let statement := jsTrim ⟨joinChar ':' parts.tail⟩
    if jsIncludes (jsToLower speaker) "patient" then
      { acc with patientStatements := acc.patientStatements ++ [statement] }
    else if jsIncludes (jsToLower speaker) "doctor" ||
            jsIncludes (jsToLower speaker) "provider" then
      { acc with doctorStatements := acc.doctorStatements ++ [statement] }
    else acc
  else acc

/-- `extractContent`: split into lines, split each labelled line at its first
colon, classify the label. -/
def extractContent (transcript : String) : ExtractedContent :=
  (splitOnChar '\n' transcript.data).foldl
    (fun acc l => classifyLine acc ⟨l⟩) ⟨[], []⟩

/-! ## JSON values and `JSON.parse`

`generateSOAPNote` and `generateCodingSuggestions` feed the raw provider
response to `JSON.parse` and use the parsed value without any shape
validation, so the embedding carries parsed values as this inductive type.
Numbers are carried as their source lexeme (`jnum "0.5"`); none of the
properties verified here inspect numeric values. -/

inductive JsonVal where
  | jnull
  | jbool (b : Bool)
  | jnum (raw : String)
  | jstr (s : String)
  | jarr (elems : List JsonVal)
  | jobj (fields : List (String × JsonVal))
deriving Repr

/-- The `\x7b` character (written via `Char.ofNat` to keep brace characters
out of the source text). -/
def lbraceChar : Char := Char.ofNat 123

/-- The `\x7d` character. -/
def rbraceChar : Char := Char.ofNat 125

/-- JSON insignificant whitespace (space, tab, line feed, carriage return). -/
def skipJsonWS : List Char → List Char
  | [] => []
  | c :: cs =>
    if c == ' ' || c == '\t' || c == '\n' || c == '\r' then skipJsonWS cs
    else c :: cs

/-- Value of a hexadecimal digit. -/
def hexVal (c : Char) : Option Nat :=
  if '0' ≤ c ∧ c ≤ '9' then some (c.toNat - 48)
  else if 'a' ≤ c ∧ c ≤ 'f' then some (c.toNat - 87)
  else if 'A' ≤ c ∧ c ≤ 'F' then some (c.toNat - 55)
  else none

/-- Decode the body of a JSON string literal (input starts after the opening
quote); returns the decoded characters and the remainder after the closing
quote.  Raw control characters are rejected, escapes are decoded. -/
def parseJStrBody : Nat → List Char → Option (List Char × List Char)
  | 0, _ => none
  | _ + 1, [] => none
  | fuel + 1, c :: cs =>
    if c == '"' then some ([], cs)
    else if c == '\\' then
      match cs with
      | [] => none
      | e :: cs' =>
        if e == '"' || e == '\\' || e == '/' then
          (parseJStrBody fuel cs').map fun pr => (e :: pr.1, pr.2)
        else if e == 'b' then
          (parseJStrBody fuel cs').map fun pr => (Char.ofNat 8 :: pr.1, pr.2)
        else if e == 'f' then
          (parseJStrBody fuel cs').map fun pr => (Char.ofNat 12 :: pr.1, pr.2)
        else if e == 'n' then
          (parseJStrBody fuel cs').map fun pr => ('\n' :: pr.1, pr.2)
        else if e == 'r' then
          (parseJStrBody fuel cs').map fun pr => ('\r' :: pr.1, pr.2)
        else if e == 't' then
          (parseJStrBody fuel cs').map fun pr => ('\t' :: pr.1, pr.2)
        else if e == 'u' then
          match cs' with
          | h1 :: h2 :: h3 :: h4 :: cs'' =>
            match hexVal h1, hexVal h2, hexVal h3, hexVal h4 with
            | some a, some b, some c3, some d =>
              (parseJStrBody fuel cs'').map fun pr =>
                (Char.ofNat (a * 4096 + b * 256 + c3 * 16 + d) :: pr.1, pr.2)
            | _, _, _, _ => none
          | _ => none
        else none
    else if c.toNat < 32 then none
    else (parseJStrBody fuel cs).map fun pr => (c :: pr.1, pr.2)

/-- Is `c` an ASCII digit? -/
def isDigitChar (c : Char) : Bool := '0' ≤ c && c ≤ '9'

/-- Recognise the optional exponent part of a JSON number and return the full
lexeme. -/
def parseNumExp (lex : List Char) (s : List Char) : Option (List Char × List Char) :=
  match s with
  | e :: rest =>
    if e == 'e' || e == 'E' then
      let signAndRest : List Char × List Char :=
        match rest with
        | c :: cs => if c == '+' || c == '-' then ([c], cs) else ([], rest)
        | [] => ([], rest)
      let digits := signAndRest.2.takeWhile isDigitChar
      if digits.isEmpty then none
      else some (lex ++ e :: signAndRest.1 ++ digits, signAndRest.2.dropWhile isDigitChar)
    else some (lex, s)
  | [] => some (lex, s)

/-- Recognise a JSON number token; returns its lexeme and the remainder.
Leading zeros (`01`) are rejected as `JSON.parse` does. -/
def parseNumLex (s : List Char) : Option (List Char × List Char) :=
  let signAndRest : List Char × List Char :=
    match s with
    | c :: cs => if c == '-' then ([c], cs) else ([], s)
    | [] => ([], s)
  let sign := signAndRest.1
  let s1 := signAndRest.2
  match s1 with
  | [] => none
  | d :: _ =>
    if !isDigitChar d then none
    else
      let intPart := s1.takeWhile isDigitChar
      let s2 := s1.dropWhile isDigitChar
      if intPart.length > 1 && intPart.headD '0' == '0' then none
      else
        match s2 with
        | '.' :: s3 =>
          let fracPart := s3.takeWhile isDigitChar
          if fracPart.isEmpty then none
          else parseNumExp (sign ++ intPart ++ '.' :: fracPart) (s3.dropWhile isDigitChar)
        | _ => parseNumExp (sign ++ intPart) s2

/-- Consume a literal keyword. -/
def afterLit (lit : List Char) (s : List Char) : Option (List Char) :=
  if startsWithChars lit s then some (s.drop lit.length) else none

/-- Insert a key into a JavaScript object: an existing key keeps its position
and gets the new value (the semantics of property definition, which is what
`JSON.parse` uses for duplicate keys), a fresh key is appended. -/
def objInsert (k : String) (v : JsonVal) : List (String × JsonVal) → List (String × JsonVal)
  | [] => [(k, v)]
  | (k', v') :: rest =>
    if k' == k then (k', v) :: rest else (k', v') :: objInsert k v rest

mutual

/-- Recursive-descent parser for a single JSON value (leading whitespace
allowed); the fuel bounds nesting depth and is instantiated generously. -/
def parseValue : Nat → List Char → Option (JsonVal × List Char)
  | 0, _ => none
  | fuel + 1, s =>
    match skipJsonWS s with
    | [] => none
    | c :: cs =>
      if c == 'n' then
        (afterLit ['u', 'l', 'l'] cs).map fun rest => (JsonVal.jnull, rest)
      else if c == 't' then
        (afterLit ['r', 'u', 'e'] cs).map fun rest => (JsonVal.jbool true, rest)
      else if c == 'f' then
        (afterLit ['a', 'l', 's', 'e'] cs).map fun rest => (JsonVal.jbool false, rest)
      else if c == '"' then
        (parseJStrBody (cs.length + 1) cs).map fun pr => (JsonVal.jstr ⟨pr.1⟩, pr.2)
      else if c == '[' then
        match parseArrItems fuel cs with
        | some (vs, rest) => some (JsonVal.jarr vs, rest)
        | none => none
      else if c == lbraceChar then
        match parseObjItems fuel cs with
        | some (fs, rest) =>
          some (JsonVal.jobj (fs.foldl (fun acc pr => objInsert pr.1 pr.2 acc) []), rest)
        | none => none
      else
        (parseNumLex (c :: cs)).map fun pr => (JsonVal.jnum ⟨pr.1⟩, pr.2)

/-- Array elements after `[`. -/
def parseArrItems : Nat → List Char → Option (List JsonVal × List Char)
  | 0, _ => none
  | fuel + 1, s =>
    match skipJsonWS s with
    | [] => none
    | c :: cs =>
      if c == ']' then some ([], cs)
      else
        match parseValue fuel (c :: cs) with
        | some (v, rest) =>
          match parseArrTail fuel rest with
          | some (vs, rest') => some (v :: vs, rest')
          | none => none
        | none => none

/-- Array continuation: `,` element … or `]`. -/
def parseArrTail : Nat → List Char → Option (List JsonVal × List Char)
  | 0, _ => none
  | fuel + 1, s =>
    match skipJsonWS s with
    | [] => none
    | c :: cs =>
      if c == ']' then some ([], cs)
      else if c == ',' then
        match parseValue fuel cs with
        | some (v, rest) =>
          match parseArrTail fuel rest with
          | some (vs, rest') => some (v :: vs, rest')
          | none => none
        | none => none
      else none

/-- Object members after the opening brace, as the raw ordered key/value
pairs (duplicates resolved by the caller with `objInsert`, matching the
property-definition semantics of `JSON.parse`). -/
def parseObjItems : Nat → List Char → Option (List (String × JsonVal) × List Char)
  | 0, _ => none
  | fuel + 1, s =>
    match skipJsonWS s with
    | [] => none
    | c :: cs =>
      if c == rbraceChar then some ([], cs)
      else if c == '"' then
        match parseJStrBody (cs.length + 1) cs with
        | some (key, rest) =>
          match skipJsonWS rest with
          | ':' :: rest' =>
            match parseValue fuel rest' with
            | some (v, rest'') =>
              match parseObjTail fuel rest'' with
              | some (fs, rest''') => some ((⟨key⟩, v) :: fs, rest''')
              | none => none
            | none => none
          | _ => none
        | none => none
      else none

/-- Object continuation: `,` member … or the closing brace. -/
def parseObjTail : Nat → List Char → Option (List (String × JsonVal) × List Char)
  | 0, _ => none
  | fuel + 1, s =>
    match skipJsonWS s with
    | [] => none
    | c :: cs =>
      if c == rbraceChar then some ([], cs)
      else if c == ',' then
        match skipJsonWS cs with
        | '"' :: cs' =>
          match parseJStrBody (cs'.length + 1) cs' with
          | some (key, rest) =>
            match skipJsonWS rest with
            | ':' :: rest' =>
              match parseValue fuel rest' with
              | some (v, rest'') =>
                match parseObjTail fuel rest'' with
                | some (fs, rest''') => some ((⟨key⟩, v) :: fs, rest''')
                | none => none
              | none => none
            | _ => none
          | none => none
        | _ => none
      else none

end

/-- `JSON.parse`: parse one value and require only trailing whitespace after
it; any leading junk, trailing junk, or malformed content yields `none`
(a thrown `SyntaxError` in JavaScript). -/
def jsonParse (s : String) : Option JsonVal :=
  match parseValue (s.data.length + 2) s.data with
  | some (v, rest) => if (skipJsonWS rest).isEmpty then some v else none
  | none => none

/-! ## JavaScript object access and coercion on `JsonVal` -/

/-- First-occurrence lookup in an object's field list (keys are unique because
objects are built with `objInsert`). -/
def lookupField (k : String) : List (String × JsonVal) → Option JsonVal
  | [] => none
  | (k', v) :: rest => if k' == k then some v else lookupField k rest

/-- Property read `v[k]`: `none` is JavaScript `undefined`.  Reads on
primitives other than `null` yield `undefined`. -/
def jsGet (v : JsonVal) (k : String) : Option JsonVal :=
  match v with
  | .jobj fields => lookupField k fields
  | _ => none

/-- Property read that can throw: reading any property of `null` is a
`TypeError`. -/
def jsGetMember (v : JsonVal) (k : String) : Except String (Option JsonVal) :=
  match v with
  | .jnull => .error ("Cannot read properties of null (reading \x27" ++ k ++ "\x27)")
  | .jobj fields => .ok (lookupField k fields)
  | _ => .ok none

/-- Property write `v[k] = x`: updates an object in place; on a primitive the
assignment is silently ignored (sloppy-mode semantics of the CommonJS
source). -/
def jsSetField (v : JsonVal) (k : String) (x : JsonVal) : JsonVal :=
  match v with
  | .jobj fields => .jobj (objInsert k x fields)
  | other => other

/-- Does a number lexeme denote zero (mantissa digits all `0`)? -/
def numIsZero (raw : String) : Bool :=
  (raw.data.takeWhile fun c => !(c == 'e' || c == 'E')).all
    fun c => c == '0' || c == '.' || c == '-' || c == '+'

/-- JavaScript truthiness of a parsed JSON value. -/
def jsTruthy : JsonVal → Bool
  | .jnull => false
  | .jbool b => b
  | .jnum raw => !numIsZero raw
  | .jstr s => !s.data.isEmpty
  | .jarr _ => true
  | .jobj _ => true

/-- Rendering of a number lexeme as `String(number)`: canonicalises plain
decimal lexemes (strip redundant zeros, drop an empty fraction, normalise
`-0`); lexemes in scientific notation are kept verbatim — an approximation of
float formatting that no verified property depends on. -/
def jsNumToString (raw : String) : String :=
  if raw.data.any fun c => c == 'e' || c == 'E' then raw
  else
    let neg := raw.data.headD ' ' == '-'
    let digits := if neg then raw.data.tail else raw.data
    let intPart := digits.takeWhile fun c => !(c == '.')
    let fracPart := (digits.dropWhile fun c => !(c == '.')).tail
    let intStripped := intPart.dropWhile fun c => c == '0'
    let intCanon := if intStripped.isEmpty then ['0'] else intStripped
    let fracCanon := (fracPart.reverse.dropWhile fun c => c == '0').reverse
    let body := if fracCanon.isEmpty then intCanon else intCanon ++ '.' :: fracCanon
    ⟨if neg && !(body == ['0']) then '-' :: body else body⟩

mutual

/-- `String(v)` — the coercion applied by `regex.test` and by template
literals to non-string values (arrays join their elements with `,`,
`null`/`undefined` elements joining as the empty string). -/
def jsToStringV : JsonVal → String
  | .jnull => "null"
  | .jbool true => "true"
  | .jbool false => "false"
  | .jnum raw => jsNumToString raw
  | .jstr s => s
  | .jarr l => jsArrJoin l
  | .jobj _ => "[object Object]"

/-- `Array.prototype.join(',')` under coercion. -/
def jsArrJoin : List JsonVal → String
  | [] => ""
  | [JsonVal.jnull] => ""
  | [v] => jsToStringV v
  | JsonVal.jnull :: rest => "," ++ jsArrJoin rest
  | v :: rest => jsToStringV v ++ "," ++ jsArrJoin rest

end

/-- Coercion of a possibly-`undefined` value inside a template literal. -/
def templateCoerce : Option JsonVal → String
  | none => "undefined"
  | some v => jsToStringV v

/-! ## SafetyRewriter (`applySafetyModifications`) -/

/-- One iteration of the inner `this.absoluteClaims.forEach` for a SOAP
section: test the current value case-insensitively, and if it matches,
globally replace and record the modification.  A match against a truthy
non-string value would be a `TypeError` (`.replace` is not a function). -/
def applyClaimsStep (sectionName : String) (acc : JsonVal × List String × List String)
    (claim : AbsoluteClaim) : Except String (JsonVal × List String × List String) :=
  if jsTestCI claim.absolute (jsToStringV acc.1) then
    match acc.1 with
    | .jstr s =>
      .ok (.jstr (jsReplaceAllCI claim.absolute claim.cautious s),
           acc.2.1 ++ ["Modified \"" ++ claim.absolute ++ "\" to \"" ++ claim.cautious ++
                       "\" in " ++ sectionName],
           acc.2.2 ++ [claim.absolute])
    | _ => .error "modifiedText.replace is not a function"
  else .ok acc

/-- Fold `applyClaimsStep` over a claim table in order. -/
def applyClaimsList (sectionName : String) :
    List AbsoluteClaim → (JsonVal × List String × List String) →
    Except String (JsonVal × List String × List String)
  | [], acc => .ok acc
  | claim :: rest, acc =>
    match applyClaimsStep sectionName acc claim with
    | .ok acc' => applyClaimsList sectionName rest acc'
    | .error e => .error e

/-- The four free-text SOAP sections, in source order. -/
def sectionNames : List String := ["subjective", "objective", "assessment", "plan"]

/-- The `sections.forEach` loop: for each section name, read the field
(throws on a `null` note), skip falsy values, rewrite truthy ones with the
claim table and write the result back. -/
def applySectionsList :
    List String → (JsonVal × List String × List String) →
    Except String (JsonVal × List String × List String)
  | [], acc => .ok acc
  | sectionName :: rest, acc =>
    match jsGetMember acc.1 sectionName with
    | .error e => .error e
    | .ok none => applySectionsList rest acc
    | .ok (some v) =>
      if jsTruthy v then
        match applyClaimsList sectionName absoluteClaims (v, [], []) with
        | .ok res =>
          applySectionsList rest
            (jsSetField acc.1 sectionName res.1, acc.2.1 ++ res.2.1, acc.2.2 ++ res.2.2)
        | .error e => .error e
      else applySectionsList rest acc

/-- One iteration of the claims fold over one problem's `rationale`, which
may be `undefined` (coercing to `"undefined"` inside `regex.test`); a match
against a truthy non-string rationale would be a `TypeError`. -/
def applyRationaleStep (cur : Option JsonVal) (d p : List String)
    (claim : AbsoluteClaim) :
    Except String (Option JsonVal × List String × List String) :=
  if jsTestCI claim.absolute (templateCoerce cur) then
    match cur with
    | some (.jstr s) =>
      .ok (some (.jstr (jsReplaceAllCI claim.absolute claim.cautious s)),
           d ++ ["Modified \"" ++ claim.absolute ++ "\" to \"" ++ claim.cautious ++
                 "\" in problem rationale"],
           p ++ [claim.absolute])
    | _ => .error "modifiedRationale.replace is not a function"
  else .ok (cur, d, p)

/-- The claims fold over one problem's `rationale`. -/
def applyRationaleList :
    List AbsoluteClaim → Option JsonVal → List String → List String →
    Except String (Option JsonVal × List String × List String)
  | [], cur, d, p => .ok (cur, d, p)
  | claim :: rest, cur, d, p =>
    match applyRationaleStep cur d p claim with
    | .ok (cur', d', p') => applyRationaleList rest cur' d' p'
    | .error e => .error e

/-- `problem.rationale = modifiedRationale`: in-place update on an object
element; silently ignored on non-`null` primitives (sloppy mode).  Writing
back an unchanged `undefined` leaves the object as-is (JSON carries no
`undefined`, and nothing downstream distinguishes an absent key from one
holding `undefined`). -/
def setRationale (problem : JsonVal) (r : Option JsonVal) : JsonVal :=
  match problem, r with
  | .jobj fields, some v => .jobj (objInsert "rationale" v fields)
  | .jobj fields, none => .jobj fields
  | other, _ => other

/-- Process one `problem_list` element: read `rationale` (throws on a `null`
element), fold the claim table over it, write it back. -/
def applyRationaleElem (problem : JsonVal) :
    Except String (JsonVal × List String × List String) :=
  match jsGetMember problem "rationale" with
  | .error e => .error e
  | .ok r0 =>
    match applyRationaleList absoluteClaims r0 [] [] with
    | .error e => .error e
    | .ok (r', d, p) => .ok (setRationale problem r', d, p)

/-- The `soap_note.problem_list.forEach` loop over the element array. -/
def applyProblemElems :
    List JsonVal → List String → List String →
    Except String (List JsonVal × List String × List String)
  | [], d, p => .ok ([], d, p)
  | e :: rest, d, p =>
    match applyRationaleElem e with
    | .error err => .error err
    | .ok (e', d', p') =>
      match applyProblemElems rest (d ++ d') (p ++ p') with
      | .ok (es, dAll, pAll) => .ok (e' :: es, dAll, pAll)
      | .error err => .error err

/-- The `.forEach` call over a truthy `problem_list` value: iterate when it
is an array (writing the mutated elements back), `TypeError` otherwise. -/
def problemListForEach (note pl : JsonVal) :
    Except String (JsonVal × List String × List String) :=
  match pl with
  | .jarr elems =>
    match applyProblemElems elems [] [] with
    | .ok (elems', d, p) => .ok (jsSetField note "problem_list" (.jarr elems'), d, p)
    | .error e => .error e
  | _ => .error "soap_note.problem_list.forEach is not a function"

/-- The problem-list stage: skipped when `problem_list` is absent or falsy;
otherwise the `.forEach` iteration over it. -/
def applyProblemListStage (note : JsonVal) :
    Except String (JsonVal × List String × List String) :=
  match jsGetMember note "problem_list" with
  | .error e => .error e
  | .ok none => .ok (note, [], [])
  | .ok (some pl) =>
    if jsTruthy pl then problemListForEach note pl
    else .ok (note, [], [])

/-- The record destructured and returned by `applySafetyModifications`. -/
structure SafetyStageInput where
  soap_note : JsonVal
  coding_suggestions : JsonVal
  safety_flags : SafetyFlags

/-- The return value of `applySafetyModifications` (the returned
`safety_flags` is the same mutated object the caller already holds). -/
structure SafetyStageOutput where
  soap_note : JsonVal
  coding_suggestions : JsonVal
  safety_flags : SafetyFlags
  modifications_made : List String

/-- `applySafetyModifications`: rewrite the four sections, then the problem
rationales; `coding_suggestions` is never touched and matched phrases are
appended to `safety_flags.modified_claims` in match order. -/
def applySafetyModifications (results : SafetyStageInput) :
    Except String SafetyStageOutput :=
  match applySectionsList sectionNames (results.soap_note, [], []) with
  | .error e => .error e
  | .ok (note1, d1, p1) =>
    match applyProblemListStage note1 with
    | .error e => .error e
    | .ok (note2, d2, p2) =>
      .ok { soap_note := note2
            coding_suggestions := results.coding_suggestions
            safety_flags :=
              { results.safety_flags with
                modified_claims := results.safety_flags.modified_claims ++ p1 ++ p2 }
            modifications_made := d1 ++ d2 }

/-! ## NoteGenerator (`generateSOAPNote`) -/

/-- The SOAP prompt text preceding the interpolated transcript. -/
def soapPromptPrefix : String :=
  "You are a medical scribe creating a SOAP note from a clinical transcript. \n" ++
  "\n" ++
  "IMPORTANT: Return your response in this exact JSON format:\n" ++
  "\x7b\n" ++
  "  \"subjective\": \"Patient\x27s reported symptoms and history...\",\n" ++
  "  \"objective\": \"Physical exam findings and vital signs...\",\n" ++
  "  \"assessment\": \"Clinical assessment and diagnoses...\",\n" ++
  "  \"plan\": \"Treatment plan and next steps...\",\n" ++
  "  \"problem_list\": [\n" ++
  "    \x7b\n" ++
  "      \"problem\": \"Primary concern or diagnosis\",\n" ++
  "      \"rationale\": \"Brief 1-2 line explanation of why this is a problem\"\n" ++
  "    \x7d\n" ++
  "  ]\n" ++
  "\x7d\n" ++
  "\n" ++
  "Transcript:\n"

/-- The SOAP prompt text following the interpolated transcript. -/
def soapPromptSuffix : String :=
  "\n\nGenerate a structured SOAP note. Extract key problems with brief rationales. " ++
  "Use professional medical language but avoid absolute claims."

/-- The note-stage prompt built from the transcript. -/
def soapPrompt (transcript : String) : String :=
  soapPromptPrefix ++ transcript ++ soapPromptSuffix

/-- The fixed fallback SOAP note substituted when `JSON.parse` fails on the
note-stage response. -/
def fallbackSoapNote : JsonVal :=
  .jobj
    [("subjective", .jstr "Unable to parse structured response - please review original transcript"),
     ("objective", .jstr "Physical examination details not clearly extracted"),
     ("assessment", .jstr "Assessment requires manual review"),
     ("plan", .jstr "Treatment plan needs clinical review"),
     ("problem_list", .jarr
       [.jobj [("problem", .jstr "Documentation parsing issue"),
               ("rationale", .jstr "AI response could not be properly structured")]])]

/-- Note-stage response handling: `JSON.parse` the full response; any parse
failure substitutes the fixed fallback note.  A successful parse is used
as-is (no shape validation). -/
def soapNoteFromResponse (response : String) : JsonVal :=
  match jsonParse response with
  | some v => v
  | none => fallbackSoapNote

/-- `generateSOAPNote`: build the prompt and run the provider call; a
provider failure is wrapped and re-thrown, a malformed response degrades to
the fallback note. -/
def generateSOAPNote (transcript : String) (providerResult : Except String String) :
    Except String (JsonVal × String) :=
  let prompt := soapPrompt transcript
  match providerResult with
  | .error e => .error ("SOAP note generation failed: " ++ e)
  | .ok response => .ok (soapNoteFromResponse response, prompt)

/-! ## CodeSuggester (`generateCodingSuggestions`) -/

/-- The coding prompt text following the interpolated SOAP fields. -/
def codingPromptTail : String :=
  "\n\nIMPORTANT: Return response in this exact JSON format:\n" ++
  "\x7b\n" ++
  "  \"icd_codes\": [\n" ++
  "    \x7b\n" ++
  "      \"code\": \"ICD-10 code\",\n" ++
  "      \"description\": \"Code description\",\n" ++
  "      \"confidence\": \"low|medium|high\",\n" ++
  "      \"relevance_score\": 0.85\n" ++
  "    \x7d\n" ++
  "  ],\n" ++
  "  \"billing_hint\": \x7b\n" ++
  "    \"type\": \"em_level\",\n" ++
  "    \"suggestion\": \"99213 - Office Visit Level 3\",\n" ++
  "    \"justification\": \"Detailed history, exam, and moderate complexity\"\n" ++
  "  \x7d,\n" ++
  "  \"cpt_codes\": [\n" ++
  "    \x7b\n" ++
  "      \"code\": \"CPT code\", \n" ++
  "      \"description\": \"Procedure description\",\n" ++
  "      \"justification\": \"Why this code applies\",\n" ++
  "      \"confidence\": \"low|medium|high\"\n" ++
  "    \x7d\n" ++
  "  ]\n" ++
  "\x7d\n" ++
  "\n" ++
  "Provide up to 3 ICD-10 codes ranked by relevance. Include E/M level suggestion " ++
  "or up to 3 CPT codes. Rate confidence as low/medium/high."

/-- The coding-stage prompt.  The template literal dereferences three fields
of the (unvalidated) parsed note, so building it throws when the note is
`null`, and renders `undefined` for absent fields. -/
def codingPrompt (soapNote : JsonVal) : Except String String :=
  match jsGetMember soapNote "subjective" with
  | .error e => .error e
  | .ok s =>
    match jsGetMember soapNote "assessment" with
    | .error e => .error e
    | .ok a =>
      match jsGetMember soapNote "plan" with
      | .error e => .error e
      | .ok p =>
        .ok ("Based on this SOAP note, suggest appropriate medical codes.\n" ++
             "\nSOAP Note:\nSubjective: " ++ templateCoerce s ++
             "\nAssessment: " ++ templateCoerce a ++
             "\nPlan: " ++ templateCoerce p ++ codingPromptTail)

/-- The fixed fallback coding suggestions substituted when `JSON.parse` fails
on the coding-stage response. -/
def fallbackCodingSuggestions : JsonVal :=
  .jobj
    [("icd_codes", .jarr
       [.jobj [("code", .jstr "Z00.00"),
               ("description", .jstr "Encounter for general adult medical examination without abnormal findings"),
               ("confidence", .jstr "low"),
               ("relevance_score", .jnum "0.5")]]),
     ("billing_hint", .jobj
       [("type", .jstr "em_level"),
        ("suggestion", .jstr "99213 - Office Visit Level 3"),
        ("justification", .jstr "Unable to determine complexity from transcript")]),
     ("cpt_codes", .jarr [])]

/-- Coding-stage response handling: `JSON.parse` the full response; any
parse failure substitutes the fixed fallback suggestions.  A successful
parse is used as-is — in particular its `icd_codes` array is neither
validated nor capped. -/
def codingSuggestionsFromResponse (response : String) : JsonVal :=
  match jsonParse response with
  | some v => v
  | none => fallbackCodingSuggestions

/-- `generateCodingSuggestions`: build the prompt (which itself can throw,
outside the stage's `try`), then run the provider call; a provider failure is
wrapped and re-thrown, a malformed response degrades to the fallback. -/
def generateCodingSuggestions (soapNote : JsonVal)
    (providerResult : Except String String) : Except String (JsonVal × String) :=
  match codingPrompt soapNote with
  | .error e => .error e
  | .ok prompt =>
    match providerResult with
    | .error e => .error ("Coding suggestions generation failed: " ++ e)
    | .ok response => .ok (codingSuggestionsFromResponse response, prompt)

/-! ## PipelineOrchestrator (`processTranscript` and the `/process` route) -/

/-- A decision-log entry. -/
structure DecisionEntry where
  step : String
  description : String
  timestamp : String
deriving Repr, DecidableEq

/-- The rendering of `codingResult.suggestions.icd_codes.length` inside the
Medical Coding log line: the unvalidated parsed value can make this property
chain throw a `TypeError`. -/
def icdLengthDesc (suggestions : JsonVal) : Except String String :=
  match suggestions with
  | .jnull => .error "Cannot read properties of null (reading \x27icd_codes\x27)"
  | .jobj fields =>
    match lookupField "icd_codes" fields with
    | some (.jarr l) => .ok (toString l.length)
    | some (.jstr s) => .ok (toString s.data.length)
    | some .jnull => .error "Cannot read properties of null (reading \x27length\x27)"
    | some _ => .ok "undefined"
    | none => .error "Cannot read properties of undefined (reading \x27length\x27)"
  | _ => .error "Cannot read properties of undefined (reading \x27length\x27)"

/-- The aggregate returned on success (`prompts_used` flattened into its two
components). -/
structure ProcessingResult where
  soap_note : JsonVal
  coding_suggestions : JsonVal
  safety_flags : SafetyFlags
  decision_log : List DecisionEntry
  soap_prompt : String
  coding_prompt : String
  processing_time_ms : Nat

/-- `processTranscript`, instrumented: besides the thrown-or-returned
outcome it reports the decision log as last mutated (on failure the log is a
local variable the source discards) and the number of provider calls made.
`provider n` is the outcome of the `n`-th OpenAI call, `iso n` the `n`-th
`toISOString()` result, and `startTime`/`endTime` the two `Date.now()`
readings. -/
def processTranscript (transcript : String) (provider : Nat → Except String String)
    (iso : Nat → String) (startTime endTime : Nat) :
    Except String ProcessingResult × List DecisionEntry × Nat :=
  let safetyFlags := validateTranscript transcript
  let log1 :=
    [⟨"Input Validation",
      "Transcript received (" ++ toString transcript.length ++ " chars). Safety scan completed.",
      iso 0⟩]
  let extracted := extractContent transcript
  let log2 := log1 ++
    [⟨"Content Extraction",
      "Extracted " ++ toString extracted.patientStatements.length ++
      " patient statements and " ++ toString extracted.doctorStatements.length ++
      " provider statements.",
      iso 1⟩]
  match generateSOAPNote transcript (provider 0) with
  | .error msg =>
    (.error msg, log2 ++ [⟨"Error", "Processing failed: " ++ msg, iso 2⟩], 1)
  | .ok (soapNote, soapPromptUsed) =>
    let log3 := log2 ++
      [⟨"SOAP Generation", "Generated structured SOAP note with problem list extraction.", iso 2⟩]
    match generateCodingSuggestions soapNote (provider 1) with
    | .error msg =>
      (.error msg, log3 ++ [⟨"Error", "Processing failed: " ++ msg, iso 3⟩], 2)
    | .ok (suggestions, codingPromptUsed) =>
      match icdLengthDesc suggestions with
      | .error msg =>
        (.error msg, log3 ++ [⟨"Error", "Processing failed: " ++ msg, iso 3⟩], 2)
      | .ok lenDesc =>
        let log4 := log3 ++
          [⟨"Medical Coding",
            "Generated " ++ lenDesc ++ " ICD-10 codes and billing recommendations.",
            iso 3⟩]
        match applySafetyModifications ⟨soapNote, suggestions, safetyFlags⟩ with
        | .error msg =>
          (.error msg, log4 ++ [⟨"Error", "Processing failed: " ++ msg, iso 4⟩], 2)
        | .ok processed =>
          let log5 := log4 ++
            [⟨"Safety Processing",
              "Applied " ++ toString processed.modifications_made.length ++ " safety modifications.",
              iso 4⟩]
          let processingTime := endTime - startTime
          let log6 := log5 ++
            [⟨"Processing Complete",
              "Total processing time: " ++ toString processingTime ++ "ms",
              iso 5⟩]
          (.ok { soap_note := processed.soap_note
                 coding_suggestions := processed.coding_suggestions
                 safety_flags := processed.safety_flags
                 decision_log := log6
                 soap_prompt := soapPromptUsed
                 coding_prompt := codingPromptUsed
                 processing_time_ms := processingTime },
           log6, 2)

/-- The HTTP responses the `/process` route can produce. -/
inductive RouteResponse where
  | success (result : ProcessingResult) (processedAt : String)
  | badRequest (msg : String)
  | serverError (msg details : String)

/-- The `/process` route handler (`routes/transcript.js`), instrumented with
the provider-call count.  The request body's `transcript` field is `none`
when missing and otherwise an arbitrary JSON value; only a non-empty string
passes validation (`!transcript` rejects the falsy empty string, the `typeof`
check rejects non-strings), and the 5 KB bound is checked before any
processing. -/
def processRoute (body : Option JsonVal) (provider : Nat → Except String String)
    (iso : Nat → String) (startTime endTime : Nat) (processedAt : String) :
    RouteResponse × Nat :=
  match body with
  | some (.jstr t) =>
    if t.length = 0 then (.badRequest "Transcript is required", 0)
    else if t.length > 5120 then (.badRequest "Transcript too large (max 5KB)", 0)
    else
      match processTranscript t provider iso startTime endTime with
      | (.ok r, _, calls) => (.success r processedAt, calls)
      | (.error msg, _, calls) => (.serverError "Failed to process transcript" msg, calls)
  | _ => (.badRequest "Transcript is required", 0)

/-! ## Field projections used in the theorem statements -/

/-- Read a field expecting a string. -/
def getFieldStr (v : JsonVal) (k : String) : Option String :=
  match jsGet v k with
  | some (.jstr s) => some s
  | _ => none

/-- Read a field expecting an array. -/
def getFieldArr (v : JsonVal) (k : String) : Option (List JsonVal) :=
  match jsGet v k with
  | some (.jarr l) => some l
  | _ => none

/-! ## The spec's two-tier parse policy (not present in the source)

The specification describes a second parsing tier — "attempt to locate the
first brace-delimited substring and parse that" — before falling back.  No
such tier exists in `transcriptService.js` (its catch substitutes the
fallback record directly), so the spec's policy is modelled here from the
spec's words for comparison. -/

/-- Modelled from the spec: the brace-delimited substring locator that the
spec's parse policy describes (`transcriptService.js` has no such code; the
regex `/\x7b[\s\S]*\x7d/` used by the unrelated `openaiService` matches from
the first opening brace to the last closing brace). -/
def firstBraceSubstring (s : String) : Option String :=
  let fromBrace := s.data.dropWhile fun c => !(c == lbraceChar)
  if fromBrace.isEmpty then none
  else
    let rev := fromBrace.reverse.dropWhile fun c => !(c == rbraceChar)
    if rev.isEmpty then none else some ⟨rev.reverse⟩

/-- Modelled from the spec: the two-tier note-stage parse the spec claims —
strict parse, then first-brace-substring parse, then the fallback note. -/
def specNoteFromResponse (response : String) : JsonVal :=
  match jsonParse response with
  | some v => v
  | none =>
    match firstBraceSubstring response with
    | some sub =>
      match jsonParse sub with
      | some v => v
      | none => fallbackSoapNote
    | none => fallbackSoapNote

/-- Modelled from the spec: the two-tier coding-stage parse the spec
claims. -/
def specCodingFromResponse (response : String) : JsonVal :=
  match jsonParse response with
  | some v => v
  | none =>
    match firstBraceSubstring response with
    | some sub =>
      match jsonParse sub with
      | some v => v
      | none => fallbackCodingSuggestions
    | none => fallbackCodingSuggestions

/-! ## Concrete values used by the specification's scenarios -/

/-- The end-to-end scenario transcript of spec §8. -/
def scenarioTranscript : String :=
  "Patient: I have severe chest pain.\nDoctor: Let\x27s check your vitals."

/-- The assessment text of the safety-rewriting scenario. -/
def scenarioAssessment : String :=
  "This treatment is guaranteed to work and has no side effects"

/-- What the spec claims the scenario assessment becomes. -/
def scenarioClaimedRewrite : String :=
  "This treatment is likely to work and has minimal side effects expected"

/-- What `applySafetyModifications` actually produces for the scenario
assessment (`guaranteed` ↦ `likely to` keeps the following `to`). -/
def scenarioActualRewrite : String :=
  "This treatment is likely to to work and has minimal side effects expected"

/-- A safety-stage input whose note carries the scenario assessment. -/
def scenarioSafetyInput : SafetyStageInput :=
  { soap_note := .jobj
      [("subjective", .jstr ""), ("objective", .jstr ""),
       ("assessment", .jstr scenarioAssessment),
       ("plan", .jstr ""), ("problem_list", .jarr [])]
    coding_suggestions := .jnull
    safety_flags := { high_risk := false, emergency_terms := [], modified_claims := [] } }

/-- The assessment field of a successful safety-stage run. -/
def safetyAssessmentOf (inp : SafetyStageInput) : Option String :=
  match applySafetyModifications inp with
  | .ok o => getFieldStr o.soap_note "assessment"
  | .error _ => none

/-- A note-stage response that is not JSON but contains a parseable
brace-delimited substring. -/
def mixedResponse : String :=
  "Here is your note: \x7b\"subjective\": \"ok\"\x7d Hope this helps!"

/-- A syntactically valid coding response carrying four ICD entries. -/
def fourCodesResponse : String := "\x7b\"icd_codes\":[1,2,3,4]\x7d"

end MiniClinical

namespace MiniClinical

/-! ## Theorems for the claims -/

/-- **C8** (counterexample): the spec's end-to-end scenario claims
`emergency_terms` includes `"severe pain"`, but the transcript contains
`"severe chest pain"`, of which `"severe pain"` is not a contiguous
substring, so `validateTranscript` does not report it. -/
theorem scenario_severe_pain_not_flagged :
    "severe pain" ∉ (validateTranscript scenarioTranscript).emergency_terms := by
  decide

/-- **C8** (amended): on the scenario transcript the risk scan yields
`high_risk = true` with `emergency_terms = ["chest pain"]` (and without
`"severe pain"`), and extraction yields exactly the two labelled
statements. -/
theorem scenario_risk_and_extraction :
    validateTranscript scenarioTranscript =
      { high_risk := true, emergency_terms := ["chest pain"], modified_claims := [] } ∧
    extractContent scenarioTranscript =
      { patientStatements := ["I have severe chest pain."]
        doctorStatements := ["Let\x27s check your vitals."] } := by
  constructor
  · decide
  · decide

/-- **C4**: whenever the note-stage response fails `JSON.parse`, the result
is the fixed fallback note: all four free-text fields are present and
non-empty (each signalling that extraction failed and review is needed), and
`problem_list` has exactly one entry describing the parse failure. -/
theorem note_fallback_shape (r : String) (h : jsonParse r = none) :
    soapNoteFromResponse r = fallbackSoapNote ∧
    (∀ sec ∈ sectionNames,
      getFieldStr (soapNoteFromResponse r) sec ≠ none ∧
      getFieldStr (soapNoteFromResponse r) sec ≠ some "") ∧
    getFieldStr (soapNoteFromResponse r) "assessment" = some "Assessment requires manual review" ∧
    getFieldArr (soapNoteFromResponse r) "problem_list" =
      some [.jobj [("problem", .jstr "Documentation parsing issue"),
                   ("rationale", .jstr "AI response could not be properly structured")]] := by
  have hs : soapNoteFromResponse r = fallbackSoapNote := by
    simp [soapNoteFromResponse, h]
  rw [hs]
  refine ⟨rfl, ?_, by decide, by rfl⟩
  decide

/-- **C4** (witness): the fallback shape at the concrete non-JSON response
`"I am not JSON."`. -/
theorem note_fallback_shape_witness :
    soapNoteFromResponse "I am not JSON." = fallbackSoapNote :=
  (note_fallback_shape "I am not JSON." (by rfl)).1

/-- **C3** (counterexample): the claimed two-tier policy and the code
disagree on a response with junk around a brace-delimited JSON object —
the code substitutes the fallback even though the brace substring parses. -/
theorem parse_policy_not_two_tier :
    ¬ (soapNoteFromResponse mixedResponse = specNoteFromResponse mixedResponse ∧
       codingSuggestionsFromResponse mixedResponse = specCodingFromResponse mixedResponse) :=
  fun h => absurd (congrArg (fun v => getFieldStr v "subjective") h.1) (by decide)

/-- **C3** (amended): the parse policy of both stages is single-tier — a
strict `JSON.parse` of the full response, whose failure substitutes the
fixed fallback record directly (no brace-substring second attempt exists in
the code). -/
theorem parse_policy_single_tier (r : String) :
    (jsonParse r = none →
      soapNoteFromResponse r = fallbackSoapNote ∧
      codingSuggestionsFromResponse r = fallbackCodingSuggestions) ∧
    (∀ v, jsonParse r = some v →
      soapNoteFromResponse r = v ∧ codingSuggestionsFromResponse r = v) := by
  constructor
  · intro h
    constructor
    · simp [soapNoteFromResponse, h]
    · simp [codingSuggestionsFromResponse, h]
  · intro v h
    constructor
    · simp [soapNoteFromResponse, h]
    · simp [codingSuggestionsFromResponse, h]

/-- **C3** (witness): the single-tier behavior at concrete responses — the
non-JSON `mixedResponse` falls back, the JSON response `"3"` is used
as-is. -/
theorem parse_policy_single_tier_witness :
    soapNoteFromResponse mixedResponse = fallbackSoapNote ∧
    codingSuggestionsFromResponse "3" = JsonVal.jnum "3" :=
  ⟨((parse_policy_single_tier mixedResponse).1 (by rfl)).1,
   ((parse_policy_single_tier "3").2 (JsonVal.jnum "3") (by rfl)).2⟩

/-- **C7** (counterexample): `icd_codes` of a parsed coding response is not
capped at 3 — a syntactically valid provider response with four entries is
passed through unvalidated. -/
theorem icd_codes_not_capped :
    ¬ ∀ (r : String) (l : List JsonVal),
        getFieldArr (codingSuggestionsFromResponse r) "icd_codes" = some l →
        l.length ≤ 3 := by
  intro h
  have h4 := h fourCodesResponse
    [JsonVal.jnum "1", JsonVal.jnum "2", JsonVal.jnum "3", JsonVal.jnum "4"] (by rfl)
  exact absurd h4 (by decide)

/-- The single ICD entry of the fallback coding suggestions. -/
def fallbackIcdEntry : JsonVal :=
  .jobj [("code", .jstr "Z00.00"),
         ("description", .jstr "Encounter for general adult medical examination without abnormal findings"),
         ("confidence", .jstr "low"),
         ("relevance_score", .jnum "0.5")]

set_option maxRecDepth 4000 in
/-- **C7** (amended): the fallback coding suggestions carry exactly one
low-confidence general-examination ICD entry (within the claimed cap), and
the cap and ranking exist only as an instruction in the coding prompt;
parsed responses are not capped. -/
theorem icd_codes_fallback_single (r : String) (h : jsonParse r = none) :
    getFieldArr (codingSuggestionsFromResponse r) "icd_codes" = some [fallbackIcdEntry] ∧
    (∀ l, getFieldArr (codingSuggestionsFromResponse r) "icd_codes" = some l →
      l.length ≤ 3) ∧
    jsIncludes codingPromptTail "Provide up to 3 ICD-10 codes ranked by relevance" = true := by
  have hc : codingSuggestionsFromResponse r = fallbackCodingSuggestions := by
    simp [codingSuggestionsFromResponse, h]
  rw [hc]
  have hval : getFieldArr fallbackCodingSuggestions "icd_codes" = some [fallbackIcdEntry] := by
    rfl
  refine ⟨hval, ?_, by decide⟩
  intro l hl
  rw [hval] at hl
  injection hl with hl'
  rw [← hl']
  decide

/-- **C7** (witness): the fallback shape at the concrete non-JSON coding
response `"zero codes here"`. -/
theorem icd_codes_fallback_single_witness :
    getFieldArr (codingSuggestionsFromResponse "zero codes here") "icd_codes" =
      some [fallbackIcdEntry] ∧ [fallbackIcdEntry].length ≤ 3 :=
  ⟨(icd_codes_fallback_single "zero codes here" (by rfl)).1,
   (icd_codes_fallback_single "zero codes here" (by rfl)).2.1 [fallbackIcdEntry]
     (icd_codes_fallback_single "zero codes here" (by rfl)).1⟩

/-- **C2**: for every transcript, `validateTranscript` reports exactly the
keywords of the fixed emergency list that occur case-insensitively as
substrings, without duplicates; `high_risk` holds exactly when some keyword
matched; `modified_claims` starts empty.  The operation is a total pure
function (hence always succeeds, with no side effects, including on the
empty transcript). -/
theorem risk_scan_exact (t : String) :
    (validateTranscript t).modified_claims = [] ∧
    ((validateTranscript t).high_risk = true ↔ (validateTranscript t).emergency_terms ≠ []) ∧
    (validateTranscript t).emergency_terms.Nodup ∧
    (∀ k, k ∈ (validateTranscript t).emergency_terms ↔
      (k ∈ emergencyKeywords ∧ jsIncludes (jsToLower t) (jsToLower k) = true)) := by
  refine ⟨rfl, ?_, ?_, ?_⟩
  · simp [validateTranscript, List.length_pos]
  · exact List.Nodup.filter _ (by decide)
  · intro k
    simp [validateTranscript, List.mem_filter]

/-! ## Frame and accumulation lemmas for the safety stage -/

/-- A phrase appended by one claim step is that claim's absolute phrase. -/
theorem applyClaimsStep_ok_phrases (sec : String) (acc : JsonVal × List String × List String)
    (claim : AbsoluteClaim) (res : JsonVal × List String × List String)
    (h : applyClaimsStep sec acc claim = .ok res) :
    res.2.2 = acc.2.2 ∨ res.2.2 = acc.2.2 ++ [claim.absolute] := by
  unfold applyClaimsStep at h
  split at h
  · split at h
    · cases h
      right
      rfl
    · cases h
  · cases h
    left
    rfl

/-- Phrases appended by the claims fold all come from the table processed. -/
theorem applyClaimsList_phrases (sec : String) :
    ∀ (cl : List AbsoluteClaim) (acc res : JsonVal × List String × List String),
      applyClaimsList sec cl acc = .ok res →
      ∃ l, res.2.2 = acc.2.2 ++ l ∧ ∀ x ∈ l, x ∈ cl.map AbsoluteClaim.absolute
  | [], acc, res, h => by
    cases h
    exact ⟨[], by simp, by simp⟩
  | claim :: rest, acc, res, h => by
    rw [applyClaimsList] at h
    cases hstep : applyClaimsStep sec acc claim with
    | error e => rw [hstep] at h; cases h
    | ok acc' =>
      rw [hstep] at h
      obtain ⟨l, hl, hsub⟩ := applyClaimsList_phrases sec rest acc' res h
      rcases applyClaimsStep_ok_phrases sec acc claim acc' hstep with h0 | h0
      · refine ⟨l, by rw [hl, h0], ?_⟩
        intro x hx
        simp only [List.map_cons, List.mem_cons]
        exact Or.inr (hsub x hx)
      · refine ⟨claim.absolute :: l, ?_, ?_⟩
        · rw [hl, h0]
          simp
        · intro x hx
          simp only [List.map_cons, List.mem_cons]
          rcases List.mem_cons.mp hx with h1 | h1
          · exact Or.inl h1
          · exact Or.inr (hsub x h1)

/-- Keys other than the processed section names are untouched by
`objInsert`-based writes. -/
theorem lookupField_objInsert_ne (k k' : String) (hne : k ≠ k') (x : JsonVal) :
    ∀ fields, lookupField k (objInsert k' x fields) = lookupField k fields
  | [] => by
    simp only [objInsert, lookupField]
    have : (k' == k) = false := by
      simp [hne.symm]
    rw [this]
    simp
  | (a, b) :: rest => by
    simp only [objInsert]
    by_cases ha : a == k'
    · rw [if_pos ha]
      have hak : (a == k) = false := by
        have : a = k' := by simpa using ha
        simp [this, hne.symm]
      simp only [lookupField, hak]
      simp
    · rw [if_neg (by simpa using (by simpa using ha : a ≠ k'))]
      simp only [lookupField]
      by_cases hak : a == k
      · simp [hak]
      · simp only [Bool.not_eq_true] at hak
        simp [hak, lookupField_objInsert_ne k k' hne x rest]

/-- `jsGet` after writing a different key. -/
theorem jsGet_jsSetField_ne (v : JsonVal) (k k' : String) (x : JsonVal) (hne : k ≠ k') :
    jsGet (jsSetField v k' x) k = jsGet v k := by
  cases v <;> simp [jsSetField, jsGet]
  exact lookupField_objInsert_ne k k' hne x _

/-- The sections loop touches only keys in its section list, and appends
only table phrases to its accumulator. -/
theorem applySectionsList_spec :
    ∀ (secs : List String) (acc res : JsonVal × List String × List String),
      applySectionsList secs acc = .ok res →
      (∀ k, k ∉ secs → jsGet res.1 k = jsGet acc.1 k) ∧
      (∃ l, res.2.2 = acc.2.2 ++ l ∧ ∀ x ∈ l, x ∈ absoluteClaims.map AbsoluteClaim.absolute)
  | [], acc, res, h => by
    cases h
    exact ⟨fun k _ => rfl, ⟨[], by simp, by simp⟩⟩
  | sec :: rest, acc, res, h => by
    rw [applySectionsList] at h
    split at h
    · cases h
    · obtain ⟨hframe, hphr⟩ := applySectionsList_spec rest acc res h
      exact ⟨fun k hk => hframe k (fun hm => hk (List.mem_cons_of_mem _ hm)), hphr⟩
    next v hget =>
      split at h
      · split at h
        next r hcl =>
          obtain ⟨hframe, l, hl, hsub⟩ := applySectionsList_spec rest _ res h
          constructor
          · intro k hk
            have hks : k ≠ sec := fun he => hk (he ▸ List.mem_cons_self _ _)
            have hkr : k ∉ rest := fun hm => hk (List.mem_cons_of_mem _ hm)
            rw [hframe k hkr]
            exact jsGet_jsSetField_ne acc.1 k sec r.1 hks
          · obtain ⟨l0, hl0, hsub0⟩ := applyClaimsList_phrases sec absoluteClaims (v, [], []) r hcl
            refine ⟨r.2.2 ++ l, ?_, ?_⟩
            · rw [hl]
              simp [List.append_assoc]
            · intro x hx
              rcases List.mem_append.mp hx with h1 | h1
              · have h2 : x ∈ ([] : List String) ++ l0 := by
                  rw [← hl0]; exact h1
                exact hsub0 x (by simpa using h2)
              · exact hsub x h1
        next e hcl => cases h
      · obtain ⟨hframe, hphr⟩ := applySectionsList_spec rest acc res h
        exact ⟨fun k hk => hframe k (fun hm => hk (List.mem_cons_of_mem _ hm)), hphr⟩

/-- A phrase appended by one rationale step is that claim's absolute
phrase. -/
theorem applyRationaleStep_ok_phrases (cur : Option JsonVal) (d p : List String)
    (claim : AbsoluteClaim) (res : Option JsonVal × List String × List String)
    (h : applyRationaleStep cur d p claim = .ok res) :
    res.2.2 = p ∨ res.2.2 = p ++ [claim.absolute] := by
  unfold applyRationaleStep at h
  split at h
  · split at h
    · cases h
      right
      rfl
    · cases h
  · cases h
    left
    rfl

/-- Phrases appended by the rationale fold all come from the table. -/
theorem applyRationaleList_phrases :
    ∀ (cl : List AbsoluteClaim) (cur : Option JsonVal) (d p : List String)
      (res : Option JsonVal × List String × List String),
      applyRationaleList cl cur d p = .ok res →
      ∃ l, res.2.2 = p ++ l ∧ ∀ x ∈ l, x ∈ cl.map AbsoluteClaim.absolute
  | [], cur, d, p, res, h => by
    cases h
    exact ⟨[], by simp, by simp⟩
  | claim :: rest, cur, d, p, res, h => by
    rw [applyRationaleList] at h
    split at h
    next cur' d' p' hstep =>
      obtain ⟨l, hl, hsub⟩ := applyRationaleList_phrases rest cur' d' p' res h
      rcases applyRationaleStep_ok_phrases cur d p claim (cur', d', p') hstep with h0 | h0
      · refine ⟨l, ?_, ?_⟩
        · rw [hl, (by exact h0 : p' = p)]
        · intro x hx
          simp only [List.map_cons, List.mem_cons]
          exact Or.inr (hsub x hx)
      · refine ⟨claim.absolute :: l, ?_, ?_⟩
        · rw [hl, (by exact h0 : p' = p ++ [claim.absolute])]
          simp
        · intro x hx
          simp only [List.map_cons, List.mem_cons]
          rcases List.mem_cons.mp hx with h1 | h1
          · exact Or.inl h1
          · exact Or.inr (hsub x h1)
    next e hstep => cases h

/-- Phrases appended by one problem element come from the table. -/
theorem applyRationaleElem_phrases (e : JsonVal) (res : JsonVal × List String × List String)
    (h : applyRationaleElem e = .ok res) :
    ∀ x ∈ res.2.2, x ∈ absoluteClaims.map AbsoluteClaim.absolute := by
  unfold applyRationaleElem at h
  split at h
  · cases h
  next r0 heq =>
    split at h
    · cases h
    next r' d p hrl =>
      cases h
      obtain ⟨l, hl, hsub⟩ := applyRationaleList_phrases absoluteClaims r0 [] [] (r', d, p) hrl
      have hp : p = l := by simpa using hl
      intro x hx
      exact hsub x (by simpa [hp] using hx)

/-- Phrases appended by the problem-element loop come from the table. -/
theorem applyProblemElems_phrases :
    ∀ (elems : List JsonVal) (d p : List String)
      (res : List JsonVal × List String × List String),
      applyProblemElems elems d p = .ok res →
      ∃ l, res.2.2 = p ++ l ∧ ∀ x ∈ l, x ∈ absoluteClaims.map AbsoluteClaim.absolute
  | [], d, p, res, h => by
    cases h
    exact ⟨[], by simp, by simp⟩
  | e :: rest, d, p, res, h => by
    rw [applyProblemElems] at h
    split at h
    · cases h
    next e' d' p' helem =>
      split at h
      next es dAll pAll hrest =>
        cases h
        obtain ⟨l, hl, hsub⟩ := applyProblemElems_phrases rest (d ++ d') (p ++ p') _ hrest
        refine ⟨p' ++ l, ?_, ?_⟩
        · simpa [List.append_assoc] using hl
        · intro x hx
          rcases List.mem_append.mp hx with h1 | h1
          · exact applyRationaleElem_phrases e (e', d', p') helem x h1
          · exact hsub x h1
      next err hrest => cases h

/-- `problemListForEach` touches only the `problem_list` key and appends
only table phrases. -/
theorem problemListForEach_spec (note pl : JsonVal)
    (res : JsonVal × List String × List String)
    (h : problemListForEach note pl = .ok res) :
    (∀ k, k ≠ "problem_list" → jsGet res.1 k = jsGet note k) ∧
    (∀ x ∈ res.2.2, x ∈ absoluteClaims.map AbsoluteClaim.absolute) := by
  unfold problemListForEach at h
  split at h
  next elems =>
    split at h
    next es d p hel =>
      cases h
      obtain ⟨l, hl, hsub⟩ := applyProblemElems_phrases elems [] [] (es, d, p) hel
      have hp : p = l := by simpa using hl
      constructor
      · intro k hk
        exact jsGet_jsSetField_ne note k "problem_list" (.jarr es) hk
      · intro x hx
        exact hsub x (by simpa [hp] using hx)
    next e hel => cases h
  next hno => cases h

/-- The problem-list stage touches only the `problem_list` key and appends
only table phrases. -/
theorem applyProblemListStage_spec (note : JsonVal)
    (res : JsonVal × List String × List String)
    (h : applyProblemListStage note = .ok res) :
    (∀ k, k ≠ "problem_list" → jsGet res.1 k = jsGet note k) ∧
    (∀ x ∈ res.2.2, x ∈ absoluteClaims.map AbsoluteClaim.absolute) := by
  unfold applyProblemListStage at h
  split at h
  · cases h
  next heq =>
    cases h
    exact ⟨fun k _ => rfl, by simp⟩
  next pl heq =>
    split at h
    · exact problemListForEach_spec note pl res h
    · cases h
      exact ⟨fun k _ => rfl, by simp⟩

/-- Aggregate behaviour of a successful `applySafetyModifications` run:
`coding_suggestions` and the risk fields are returned unchanged,
`modified_claims` is extended by phrases from the table only, and `soap_note`
keys other than the four sections and `problem_list` are untouched. -/
theorem applySafety_ok_spec (inp : SafetyStageInput) (out : SafetyStageOutput)
    (h : applySafetyModifications inp = .ok out) :
    out.coding_suggestions = inp.coding_suggestions ∧
    out.safety_flags.high_risk = inp.safety_flags.high_risk ∧
    out.safety_flags.emergency_terms = inp.safety_flags.emergency_terms ∧
    (∃ l, out.safety_flags.modified_claims = inp.safety_flags.modified_claims ++ l ∧
      ∀ x ∈ l, x ∈ absoluteClaims.map AbsoluteClaim.absolute) ∧
    (∀ k, k ∉ sectionNames → k ≠ "problem_list" →
      jsGet out.soap_note k = jsGet inp.soap_note k) := by
  unfold applySafetyModifications at h
  split at h
  · cases h
  next note1 d1 p1 hsec =>
    split at h
    · cases h
    next note2 d2 p2 hpl =>
      cases h
      obtain ⟨hframe1, l1, hl1, hsub1⟩ := applySectionsList_spec sectionNames _ _ hsec
      obtain ⟨hframe2, hsub2⟩ := applyProblemListStage_spec note1 (note2, d2, p2) hpl
      have hp1 : p1 = l1 := by simpa using hl1
      refine ⟨rfl, rfl, rfl, ⟨p1 ++ p2, by simp [List.append_assoc], ?_⟩, ?_⟩
      · intro x hx
        rcases List.mem_append.mp hx with h1 | h1
        · exact hsub1 x (hp1 ▸ h1)
        · exact hsub2 x h1
      · intro k hks hkp
        rw [hframe2 k hkp]
        exact hframe1 k hks

/-- The output `applySafetyModifications` produces on
`scenarioSafetyInput`: both phrases are rewritten (the second `to` of
`guaranteed to work` survives) and recorded. -/
def scenarioSafetyOutput : SafetyStageOutput :=
  { soap_note := .jobj
      [("subjective", .jstr ""), ("objective", .jstr ""),
       ("assessment", .jstr scenarioActualRewrite),
       ("plan", .jstr ""), ("problem_list", .jarr [])]
    coding_suggestions := .jnull
    safety_flags := { high_risk := false, emergency_terms := []
                      modified_claims := ["guaranteed", "no side effects"] }
    modifications_made :=
      ["Modified \"guaranteed\" to \"likely to\" in assessment",
       "Modified \"no side effects\" to \"minimal side effects expected\" in assessment"] }

set_option maxRecDepth 4000 in
/-- **C1** (counterexample): on the spec's own scenario assessment the
rewriter produces `"This treatment is likely to to work and has minimal side
effects expected"` (the table replaces the bare word `guaranteed` by
`likely to`, leaving the following `to`), not the spec's claimed
`"This treatment is likely to work and has minimal side effects
expected"`. -/
theorem scenario_rewrite_disagrees :
    safetyAssessmentOf scenarioSafetyInput = some scenarioActualRewrite ∧
    ¬ safetyAssessmentOf scenarioSafetyInput = some scenarioClaimedRewrite := by
  constructor
  · rfl
  · intro h
    have : scenarioActualRewrite = scenarioClaimedRewrite := by
      have h' : some scenarioActualRewrite = some scenarioClaimedRewrite :=
        (by rfl : safetyAssessmentOf scenarioSafetyInput = some scenarioActualRewrite).symm.trans h
      injection h'
    exact absurd this (by decide)

set_option maxRecDepth 4000 in
/-- **C1** (amended): for every input, a successful safety pass appends to
`modified_claims` exactly a batch of phrases drawn from the absolute-claim
table (one per actual case-insensitive match, all rules applied in table
order); and on the scenario input with assessment `"This treatment is
guaranteed to work and has no side effects"` the output assessment is
`"This treatment is likely to to work and has minimal side effects
expected"`, with both `"guaranteed"` and `"no side effects"` appended to
`modified_claims` and both modification descriptions recorded. -/
theorem safety_rewrite_behaviour :
    (∀ inp out, applySafetyModifications inp = .ok out →
      ∃ l, out.safety_flags.modified_claims = inp.safety_flags.modified_claims ++ l ∧
        ∀ x ∈ l, x ∈ absoluteClaims.map AbsoluteClaim.absolute) ∧
    applySafetyModifications scenarioSafetyInput = .ok scenarioSafetyOutput ∧
    getFieldStr scenarioSafetyOutput.soap_note "assessment" = some scenarioActualRewrite ∧
    "guaranteed" ∈ scenarioSafetyOutput.safety_flags.modified_claims ∧
    "no side effects" ∈ scenarioSafetyOutput.safety_flags.modified_claims := by
  refine ⟨?_, by rfl, by rfl, by decide, by decide⟩
  intro inp out h
  exact (applySafety_ok_spec inp out h).2.2.2.1

set_option maxRecDepth 4000 in
/-- **C1** (witness): the quantified part of the amended claim applied to
the concrete scenario run. -/
theorem safety_rewrite_behaviour_witness :
    ∃ l, scenarioSafetyOutput.safety_flags.modified_claims =
        scenarioSafetyInput.safety_flags.modified_claims ++ l ∧
      ∀ x ∈ l, x ∈ absoluteClaims.map AbsoluteClaim.absolute :=
  safety_rewrite_behaviour.1 scenarioSafetyInput scenarioSafetyOutput (by rfl)

/-- The risk fields of a successful pipeline run are the ones created by
`validateTranscript` at the start of the request. -/
theorem processTranscript_ok_flags (t : String) (provider : Nat → Except String String)
    (iso : Nat → String) (t0 t1 : Nat) (r : ProcessingResult)
    (log : List DecisionEntry) (calls : Nat)
    (h : processTranscript t provider iso t0 t1 = (.ok r, log, calls)) :
    r.safety_flags.high_risk = (validateTranscript t).high_risk ∧
    r.safety_flags.emergency_terms = (validateTranscript t).emergency_terms := by
  simp only [processTranscript] at h
  split at h
  · simp at h
  next soapNote soapPromptUsed hsoap =>
    split at h
    · simp at h
    next suggestions codingPromptUsed hcod =>
      split at h
      · simp at h
      next lenDesc hlen =>
        split at h
        · simp at h
        next processed hsafety =>
          injection h with h1 h23
          obtain ⟨hcu, hhr, het, _⟩ := applySafety_ok_spec _ processed hsafety
          rw [← Except.ok.inj h1]
          exact ⟨hhr, het⟩

/-- **C9**: `high_risk == (emergency_terms nonempty)` is established by
`validateTranscript` at creation; `applySafetyModifications` returns
`high_risk` and `emergency_terms` unchanged and only appends to
`modified_claims`; and a successful pipeline run surfaces exactly the risk
fields created at the start, so the invariant still holds on the result. -/
theorem safety_flags_invariant :
    (∀ t, ((validateTranscript t).high_risk = true ↔
      (validateTranscript t).emergency_terms ≠ [])) ∧
    (∀ inp out, applySafetyModifications inp = .ok out →
      out.safety_flags.high_risk = inp.safety_flags.high_risk ∧
      out.safety_flags.emergency_terms = inp.safety_flags.emergency_terms ∧
      ∃ l, out.safety_flags.modified_claims = inp.safety_flags.modified_claims ++ l) ∧
    (∀ t provider iso t0 t1 r log calls,
      processTranscript t provider iso t0 t1 = (.ok r, log, calls) →
      r.safety_flags.high_risk = (validateTranscript t).high_risk ∧
      r.safety_flags.emergency_terms = (validateTranscript t).emergency_terms ∧
      (r.safety_flags.high_risk = true ↔ r.safety_flags.emergency_terms ≠ [])) := by
  have hinv : ∀ t, ((validateTranscript t).high_risk = true ↔
      (validateTranscript t).emergency_terms ≠ []) := by
    intro t
    simp [validateTranscript, List.length_pos]
  refine ⟨hinv, ?_, ?_⟩
  · intro inp out h
    obtain ⟨_, hhr, het, ⟨l, hl, _⟩, _⟩ := applySafety_ok_spec inp out h
    exact ⟨hhr, het, l, hl⟩
  · intro t provider iso t0 t1 r log calls h
    obtain ⟨hhr, het⟩ := processTranscript_ok_flags t provider iso t0 t1 r log calls h
    refine ⟨hhr, het, ?_⟩
    rw [hhr, het]
    exact hinv t

set_option maxRecDepth 4000 in
/-- **C9** (witness): flag preservation at the concrete scenario run. -/
theorem safety_flags_invariant_witness :
    scenarioSafetyOutput.safety_flags.emergency_terms =
      scenarioSafetyInput.safety_flags.emergency_terms ∧
    ∃ l, scenarioSafetyOutput.safety_flags.modified_claims =
      scenarioSafetyInput.safety_flags.modified_claims ++ l :=
  ⟨(safety_flags_invariant.2.1 scenarioSafetyInput scenarioSafetyOutput (by rfl)).2.1,
   (safety_flags_invariant.2.1 scenarioSafetyInput scenarioSafetyOutput (by rfl)).2.2⟩

/-- **C10**: the safety stage returns `coding_suggestions` untouched (so
absolute-claim phrases inside ICD/CPT descriptions, justifications or the
billing hint are never rewritten), leaves the risk fields alone, only
appends to `modified_claims`, and modifies no `soap_note` key besides the
four sections and `problem_list`. -/
theorem safety_stage_frame (inp : SafetyStageInput) (out : SafetyStageOutput)
    (h : applySafetyModifications inp = .ok out) :
    out.coding_suggestions = inp.coding_suggestions ∧
    out.safety_flags.high_risk = inp.safety_flags.high_risk ∧
    out.safety_flags.emergency_terms = inp.safety_flags.emergency_terms ∧
    (∃ l, out.safety_flags.modified_claims = inp.safety_flags.modified_claims ++ l) ∧
    (∀ k, k ∉ sectionNames → k ≠ "problem_list" →
      jsGet out.soap_note k = jsGet inp.soap_note k) := by
  obtain ⟨hcu, hhr, het, ⟨l, hl, _⟩, hframe⟩ := applySafety_ok_spec inp out h
  exact ⟨hcu, hhr, het, ⟨l, hl⟩, hframe⟩

set_option maxRecDepth 4000 in
/-- **C10** (witness): the frame at the concrete scenario run. -/
theorem safety_stage_frame_witness :
    scenarioSafetyOutput.coding_suggestions = scenarioSafetyInput.coding_suggestions ∧
    scenarioSafetyOutput.safety_flags.high_risk =
      scenarioSafetyInput.safety_flags.high_risk :=
  ⟨(safety_stage_frame scenarioSafetyInput scenarioSafetyOutput (by rfl)).1,
   (safety_stage_frame scenarioSafetyInput scenarioSafetyOutput (by rfl)).2.1⟩

/-! ## C6: input-validation boundaries -/

/-- A transcript of `n` copies of `a`. -/
def mkTranscript (n : Nat) : String := ⟨List.replicate n 'a'⟩

/-- Length of the synthetic transcript. -/
theorem mkTranscript_length (n : Nat) : (mkTranscript n).length = n := by
  show (List.replicate n 'a').length = n
  simp

/-- Is a route response the 400 rejection? -/
def RouteResponse.isBadRequest : RouteResponse → Bool
  | .badRequest _ => true
  | _ => false

/-- Once the pipeline runs, at least one provider call is made. -/
theorem processTranscript_calls_pos (t : String) (provider : Nat → Except String String)
    (iso : Nat → String) (t0 t1 : Nat) :
    1 ≤ (processTranscript t provider iso t0 t1).2.2 := by
  simp only [processTranscript]
  split
  · simp
  · split
    · simp
    · split
      · simp
      · split
        · simp
        · simp

/-- A transcript passing both validation checks is processed: the response is
never the 400 rejection and the provider is consulted. -/
theorem processRoute_valid (t : String) (h0 : ¬ t.length = 0) (h1 : ¬ t.length > 5120)
    (provider : Nat → Except String String) (iso : Nat → String) (t0 t1 : Nat)
    (pAt : String) :
    RouteResponse.isBadRequest
      (processRoute (some (.jstr t)) provider iso t0 t1 pAt).1 = false ∧
    1 ≤ (processRoute (some (.jstr t)) provider iso t0 t1 pAt).2 := by
  have hcalls := processTranscript_calls_pos t provider iso t0 t1
  simp only [processRoute]
  rw [if_neg h0, if_neg h1]
  split
  next r x calls heq =>
    rw [heq] at hcalls
    exact ⟨rfl, hcalls⟩
  next msg x calls heq =>
    rw [heq] at hcalls
    exact ⟨rfl, hcalls⟩

/-- **C6**: the `/process` route accepts a 5120-character transcript
(processing runs, at least one provider call is made, no 400 is produced)
and rejects a 5121-character transcript, the empty transcript and a missing
transcript with a 400 before any provider call (`0` calls made). -/
theorem input_validation_boundaries (provider : Nat → Except String String)
    (iso : Nat → String) (t0 t1 : Nat) (pAt : String) :
    (RouteResponse.isBadRequest
        (processRoute (some (.jstr (mkTranscript 5120))) provider iso t0 t1 pAt).1 = false ∧
      1 ≤ (processRoute (some (.jstr (mkTranscript 5120))) provider iso t0 t1 pAt).2) ∧
    processRoute (some (.jstr (mkTranscript 5121))) provider iso t0 t1 pAt =
      (.badRequest "Transcript too large (max 5KB)", 0) ∧
    processRoute (some (.jstr "")) provider iso t0 t1 pAt =
      (.badRequest "Transcript is required", 0) ∧
    processRoute none provider iso t0 t1 pAt =
      (.badRequest "Transcript is required", 0) := by
  refine ⟨?_, ?_, rfl, rfl⟩
  · exact processRoute_valid (mkTranscript 5120)
      (by rw [mkTranscript_length]; omega) (by rw [mkTranscript_length]; omega)
      provider iso t0 t1 pAt
  · simp only [processRoute]
    rw [if_neg (by rw [mkTranscript_length]; omega),
        if_pos (by rw [mkTranscript_length]; omega)]

/-! ## C5: failure propagation -/

/-- A provider whose every call fails with `boom`. -/
def failProviderBoom : Nat → Except String String := fun _ => .error "boom"

/-- A fixed clock for concrete runs. -/
def isoConst : Nat → String := fun _ => "2026-01-01T00:00:00.000Z"

/-- Building the coding prompt only throws on a `null` note. -/
theorem codingPrompt_ok_of_ne_null (note : JsonVal) (h : ¬ note = .jnull) :
    ∃ P, codingPrompt note = .ok P := by
  cases note with
  | jnull => exact absurd rfl h
  | jbool b => exact ⟨_, rfl⟩
  | jnum raw => exact ⟨_, rfl⟩
  | jstr s => exact ⟨_, rfl⟩
  | jarr l => exact ⟨_, rfl⟩
  | jobj f => exact ⟨_, rfl⟩

/-- **C5** (amended): when a provider call fails (either generation stage),
the wrapped failure reason is appended as a final `Error` entry to the
request's decision log, the wrapped error is re-raised, and no
`ProcessingResult` is produced — but the decision log stays local to the
service (the claim's "surfaced to the caller" part fails, see the
counterexample). -/
theorem failure_appends_log_and_reraises (t e : String)
    (provider : Nat → Except String String) (iso : Nat → String) (t0 t1 : Nat) :
    (provider 0 = .error e →
      processTranscript t provider iso t0 t1 =
        (.error ("SOAP note generation failed: " ++ e),
         [⟨"Input Validation",
           "Transcript received (" ++ toString t.length ++ " chars). Safety scan completed.",
           iso 0⟩,
          ⟨"Content Extraction",
           "Extracted " ++ toString (extractContent t).patientStatements.length ++
           " patient statements and " ++ toString (extractContent t).doctorStatements.length ++
           " provider statements.",
           iso 1⟩,
          ⟨"Error", "Processing failed: " ++ ("SOAP note generation failed: " ++ e), iso 2⟩],
         1)) ∧
    (∀ response, provider 0 = .ok response → jsonParse response = none →
      provider 1 = .error e →
      processTranscript t provider iso t0 t1 =
        (.error ("Coding suggestions generation failed: " ++ e),
         [⟨"Input Validation",
           "Transcript received (" ++ toString t.length ++ " chars). Safety scan completed.",
           iso 0⟩,
          ⟨"Content Extraction",
           "Extracted " ++ toString (extractContent t).patientStatements.length ++
           " patient statements and " ++ toString (extractContent t).doctorStatements.length ++
           " provider statements.",
           iso 1⟩,
          ⟨"SOAP Generation", "Generated structured SOAP note with problem list extraction.",
           iso 2⟩,
          ⟨"Error", "Processing failed: " ++ ("Coding suggestions generation failed: " ++ e), iso 3⟩],
         2)) := by
  constructor
  · intro hp
    simp [processTranscript, generateSOAPNote, hp]
  · intro response hp0 hparse hp1
    have hnote : soapNoteFromResponse response = fallbackSoapNote := by
      simp [soapNoteFromResponse, hparse]
    obtain ⟨P, hcp⟩ :=
      codingPrompt_ok_of_ne_null fallbackSoapNote (by simp [fallbackSoapNote])
    simp [processTranscript, generateSOAPNote, hp0, hnote,
          generateCodingSuggestions, hcp, hp1]

/-- **C5** (witness): the stage-1 failure behaviour at a concrete run. -/
theorem failure_appends_log_witness :
    processTranscript "hi" failProviderBoom isoConst 0 0 =
      (.error ("SOAP note generation failed: " ++ "boom"),
       [⟨"Input Validation",
         "Transcript received (" ++ toString ("hi" : String).length ++
         " chars). Safety scan completed.",
         isoConst 0⟩,
        ⟨"Content Extraction",
         "Extracted " ++ toString (extractContent "hi").patientStatements.length ++
         " patient statements and " ++
         toString (extractContent "hi").doctorStatements.length ++
         " provider statements.",
         isoConst 1⟩,
        ⟨"Error", "Processing failed: " ++ ("SOAP note generation failed: " ++ "boom"), isoConst 2⟩],
       1) :=
  (failure_appends_log_and_reraises "hi" "boom" failProviderBoom isoConst 0 0).1 rfl

/-- **C5** (counterexample): the partial decision log is not surfaced to the
caller.  Two requests with different transcripts (hence different partial
logs) and the same provider failure produce identical caller-visible
responses — the route's failure response consists of a fixed message and the
failure text only, so it cannot carry the log. -/
theorem failure_log_not_surfaced :
    (processRoute (some (.jstr "Patient: hi")) failProviderBoom isoConst 0 0 "at").1 =
      (processRoute (some (.jstr "Doctor: yo!!")) failProviderBoom isoConst 0 0 "at").1 ∧
    (processRoute (some (.jstr "Patient: hi")) failProviderBoom isoConst 0 0 "at").1 =
      RouteResponse.serverError "Failed to process transcript"
        "SOAP note generation failed: boom" ∧
    ¬ (processTranscript "Patient: hi" failProviderBoom isoConst 0 0).2.1 =
      (processTranscript "Doctor: yo!!" failProviderBoom isoConst 0 0).2.1 := by
  refine ⟨rfl, rfl, ?_⟩
  decide

end MiniClinical

